import Mathlib

/-!
Shallow embedding of the corec-tracker core (scraper.py, database.py,
analyze.py) together with theorems settling the specification claims.

Conventions of the embedding:
* Python ints are Int or Nat; Python floats over this code path only ever
  hold exact decimal values produced by integer division and decimal
  literals, and are modelled by ℚ.
* Python None is modelled by Option; `a or b` on possibly-falsy values is
  modelled by explicit helpers that treat 0, 0.0, "" and None as falsy.
* A Python function that can raise returns Except PyErr; a function that
  returns None-or-value returns Option.
* re.search is modelled by a scan that tries every start position from the
  left and applies a deterministic matcher (for the concrete patterns used
  by the source, greedy matching with backtracking admits exactly one match
  per start position, as each pattern piece is delimited).
-/

set_option allowUnsafeReducibility true in
attribute [semireducible] Rat.mul Rat.inv Rat.add Rat.sub Rat.div

namespace CorecTracker

/-- Runtime errors a modelled code path can raise. -/
inductive PyErr where
  | zeroDivision
deriving DecidableEq

instance {ε α : Type} [DecidableEq ε] [DecidableEq α] : DecidableEq (Except ε α) :=
  fun a b =>
  match a, b with
  | .error e, .error f =>
    match decEq e f with
    | .isTrue h => .isTrue (h ▸ rfl)
    | .isFalse h => .isFalse (fun hh => h (Except.error.inj hh))
  | .ok x, .ok y =>
    match decEq x y with
    | .isTrue h => .isTrue (h ▸ rfl)
    | .isFalse h => .isFalse (fun hh => h (Except.ok.inj hh))
  | .error _, .ok _ => .isFalse (fun hh => Except.noConfusion hh)
  | .ok _, .error _ => .isFalse (fun hh => Except.noConfusion hh)

/-! ## String helpers -/

/-- Does the first character list start with the second (the needle)? -/
def leadsWith : List Char → List Char → Bool
  | [], _ => true
  | _ :: _, [] => false
  | a :: as, b :: bs => a == b && leadsWith as bs

/-- Substring test on character lists: does the needle occur in the hay?
Models the Python operator for membership of one string in another. -/
def containsSeq (needle : List Char) : List Char → Bool
  | [] => leadsWith needle []
  | c :: rest => leadsWith needle (c :: rest) || containsSeq needle rest

/-- Models the Python test a.lower() in b.lower().  Implemented on
character lists (the library byte-position string functions are avoided
throughout so every definition evaluates by plain reduction). -/
def lowerIn (needle hay : String) : Bool :=
  containsSeq (needle.toList.map Char.toLower) (hay.toList.map Char.toLower)

/-- Python str.strip on a character list. -/
def charsTrim (cs : List Char) : List Char :=
  ((cs.dropWhile Char.isWhitespace).reverse.dropWhile Char.isWhitespace).reverse

/-- Python str.strip. -/
def strTrim (s : String) : String := ⟨charsTrim s.toList⟩

/-- Worker for the newline split: collects the current line in reverse. -/
def splitLinesAux : List Char → List Char → List String
  | [], acc => [⟨acc.reverse⟩]
  | c :: rest, acc =>
    if c = '\n' then (⟨acc.reverse⟩ : String) :: splitLinesAux rest []
    else splitLinesAux rest (c :: acc)

/-- Python str.split on a newline separator: a trailing newline yields a
final empty piece, like the Python method. -/
def splitLines (s : String) : List String := splitLinesAux s.toList []

/-! ## Regex machinery (the concrete patterns of scraper.py) -/

/-- Maximal leading digit run and the remaining characters. -/
def digitSpan : List Char → List Char × List Char
  | [] => ([], [])
  | c :: rest =>
    if c.isDigit then
      let p := digitSpan rest
      (c :: p.1, p.2)
    else ([], c :: rest)

/-- Drop leading whitespace. -/
def wsSkip : List Char → List Char
  | [] => []
  | c :: rest => if c.isWhitespace then wsSkip rest else c :: rest

/-- Numeric value of a digit run. -/
def digitsVal (ds : List Char) : Nat :=
  ds.foldl (fun n c => n * 10 + (c.toNat - 48)) 0

/-- Maximal leading run of the character class of digits and dots. -/
def digitDotSpan : List Char → List Char × List Char
  | [] => ([], [])
  | c :: rest =>
    if c.isDigit || c == '.' then
      let p := digitDotSpan rest
      (c :: p.1, p.2)
    else ([], c :: rest)

/-- Match the slash pattern (digits, optional spaces, slash, optional
spaces, digits) at the current position.  Returns the two captured
integers. -/
def matchSlashAt (cs : List Char) : Option (Nat × Nat) :=
  let p1 := digitSpan cs
  if p1.1 = [] then none
  else
    match wsSkip p1.2 with
    | '/' :: r3 =>
      let p2 := digitSpan (wsSkip r3)
      if p2.1 = [] then none
      else some (digitsVal p1.1, digitsVal p2.1)
    | _ => none

/-- Match digits immediately followed by a percent sign at the current
position; the integer-percent alternative of the Tier A pattern. -/
def matchIntPctAt (cs : List Char) : Option Nat :=
  let p1 := digitSpan cs
  if p1.1 = [] then none
  else
    match p1.2 with
    | '%' :: _ => some (digitsVal p1.1)
    | _ => none

/-- Match digits, an optional dot with further optional digits, then a
percent sign, at the current position; yields the decimal value. -/
def matchFloatPctAt (cs : List Char) : Option ℚ :=
  let p1 := digitSpan cs
  if p1.1 = [] then none
  else
    match p1.2 with
    | '.' :: r2 =>
      let p2 := digitSpan r2
      match p2.2 with
      | '%' :: _ => some ((digitsVal p1.1 : ℚ) + (digitsVal p2.1 : ℚ) / (10 : ℚ) ^ p2.1.length)
      | _ => none
    | '%' :: _ => some ((digitsVal p1.1 : ℚ))
    | _ => none

/-- Result of the Tier A alternation pattern: a slash pair or a bare
integer percentage. -/
inductive SlashOrPct where
  | sp (occ cap : Nat)
  | pc (pct : Nat)
deriving DecidableEq

/-- The Tier A alternation at the current position: the slash branch is
tried first, then the bare percent branch. -/
def matchSlashOrPctAt (cs : List Char) : Option SlashOrPct :=
  match matchSlashAt cs with
  | some oc => some (.sp oc.1 oc.2)
  | none =>
    match matchIntPctAt cs with
    | some p => some (.pc p)
    | none => none

/-- Leftmost-match search: try the matcher at every start position from
the left, models re.search for the deterministic matchers above. -/
def reSearch (f : List Char → Option β) : List Char → Option β
  | [] => f []
  | c :: cs =>
    match f (c :: cs) with
    | some r => some r
    | none => reSearch f cs

/-- Match the dedicated-widget capacity pattern at the current position:
the literal word Capacity with a colon, spaces, digits, slash, digits, a
double slash, a digit-or-dot run, then a percent sign.  Captures the two
integers and the raw digit-dot run. -/
def matchCapacityAt (cs : List Char) : Option (Nat × Nat × List Char) :=
  if leadsWith "Capacity:".toList cs then
    let r1 := wsSkip (cs.drop 9)
    let p1 := digitSpan r1
    if p1.1 = [] then none
    else
      match wsSkip p1.2 with
      | '/' :: r4 =>
        let p2 := digitSpan (wsSkip r4)
        if p2.1 = [] then none
        else
          match wsSkip p2.2 with
          | '/' :: '/' :: r8 =>
            let p3 := digitDotSpan (wsSkip r8)
            if p3.1 = [] then none
            else
              match p3.2 with
              | '%' :: _ => some (digitsVal p1.1, digitsVal p2.1, p3.1)
              | _ => none
          | _ => none
      | _ => none
  else none

/-- Model of the Python float constructor applied to a digit-or-dot run:
at most one dot and at least one digit, otherwise a conversion failure
(modelled as none). -/
def pyFloatOfChars (cs : List Char) : Option ℚ :=
  let p1 := digitSpan cs
  match p1.2 with
  | [] => if p1.1 = [] then none else some ((digitsVal p1.1 : ℚ))
  | '.' :: r2 =>
    let p2 := digitSpan r2
    if p2.2 = [] then
      if p1.1 = [] && p2.1 = [] then none
      else some ((digitsVal p1.1 : ℚ) + (digitsVal p2.1 : ℚ) / (10 : ℚ) ^ p2.1.length)
    else none
  | _ => none

/-! ## Facility-name vocabularies (verbatim from scraper.py) -/

/-- Vocabulary used by the Tier A ancestor walk. -/
def vocabTierA : List String :=
  ["CoRec", "Corec", "TREC", "Trec", "Boiler", "Aquatics"]

/-- Vocabulary used by parse_facility_text. -/
def vocabParse : List String :=
  ["CoRec", "Corec", "TREC", "Trec", "Boiler", "Aquatics",
   "Cordova", "Recreation", "Fitness"]

/-- Vocabulary used by the line scan of parse_all_text. -/
def vocabAllText : List String :=
  ["CoRec", "Corec", "TREC", "Trec", "Boiler", "Aquatics",
   "Cordova", "Recreation", "Fitness", "Facility"]

/-- First vocabulary name whose lowercase form occurs in the lowercase
text; models the first-match-and-break loops of scraper.py. -/
def findVocabName (names : List String) (text : String) : Option String :=
  names.find? (fun n => lowerIn n text)

/-! ## Readings -/

/-- A reading as produced by the extraction strategies (the transient
dict of scraper.py; the collection timestamp is external input and not
part of the parsing behaviour, so it is omitted here). -/
structure FReading where
  name : String
  occupancy : Option Int
  capacity : Option Int
  percentage : Option ℚ
deriving DecidableEq

/-! ## Free-text strategy: parse_facility_text and parse_all_text -/

/-- Model of scraper.py parse_facility_text: requires a vocabulary name in
the text, then tries the slash pattern (deriving the percentage by
division, which raises on a zero capacity), then the decimal percent
pattern. -/
def parse_facility_text (text : String) : Except PyErr (Option FReading) :=
  match findVocabName vocabParse text with
  | none => .ok none
  | some fname =>
    match reSearch matchSlashAt text.toList with
    | some oc =>
      if oc.2 = 0 then .error .zeroDivision
      else .ok (some ⟨fname, some (oc.1 : Int), some (oc.2 : Int),
        some ((oc.1 : ℚ) / (oc.2 : ℚ) * 100)⟩)
    | none =>
      match reSearch matchFloatPctAt text.toList with
      | some p => .ok (some ⟨fname, none, none, some p⟩)
      | none => .ok none

/-- The line loop of parse_all_text: carries the current-facility state
and the accumulated readings. -/
def parseAllLoop : List String → Option String → List FReading →
    Except PyErr (List FReading)
  | [], _, acc => .ok acc
  | l :: rest, cur, acc =>
    let line := strTrim l
    if line = "" then parseAllLoop rest cur acc
    else
      let cur1 :=
        match findVocabName vocabAllText line with
        | some n => some n
        | none => cur
      match cur1 with
      | none => parseAllLoop rest none acc
      | some _ =>
        match parse_facility_text line with
        | .error e => .error e
        | .ok none => parseAllLoop rest cur1 acc
        | .ok (some fd) =>
          if fd.name = "" then parseAllLoop rest cur1 acc
          else parseAllLoop rest none (acc ++ [fd])

/-- Model of scraper.py parse_all_text: split into lines and scan them
with the current-facility state. -/
def parse_all_text (text : String) : Except PyErr (List FReading) :=
  parseAllLoop (splitLines text) none []

/-! ## Truthiness helpers for the Python or-chains -/

/-- Python or on optional ints: keep the left value when it is truthy
(present and nonzero), otherwise return the right operand unchanged. -/
def pyOrInt (a b : Option Int) : Option Int :=
  match a with
  | some v => if v = 0 then b else some v
  | none => b

/-- Python or on optional rationals. -/
def pyOrQ (a b : Option ℚ) : Option ℚ :=
  match a with
  | some v => if v = 0 then b else some v
  | none => b

/-- Python or on optional strings (the empty string is falsy). -/
def pyOrStr (a b : Option String) : Option String :=
  match a with
  | some v => if v = "" then b else some v
  | none => b

/-- Truthiness of an optional int. -/
def truthyInt (a : Option Int) : Bool :=
  match a with
  | some v => v != 0
  | none => false

/-- Truthiness of an optional rational. -/
def truthyQ (a : Option ℚ) : Bool :=
  match a with
  | some v => v != 0
  | none => false

/-! ## Embedded-JSON strategy: convert_json_to_facility -/

/-- The fields the JSON normalization of scraper.py probes with dict.get.
A JSON fragment may carry any subset of them. -/
structure JsonDict where
  nameF : Option String
  facilityF : Option String
  occupancyF : Option Int
  currentF : Option Int
  capacityF : Option Int
  maxF : Option Int
  percentageF : Option ℚ
  percentF : Option ℚ
deriving DecidableEq

/-- Model of scraper.py convert_json_to_facility: or-chains normalize the
alias keys, and the percentage is derived from occupancy and capacity
only when both are truthy and the source percentage is falsy. -/
def convert_json_to_facility (d : JsonDict) : FReading :=
  let name := (pyOrStr (pyOrStr d.nameF d.facilityF) (some "Unknown")).getD "Unknown"
  let occ := pyOrInt d.occupancyF d.currentF
  let cap := pyOrInt d.capacityF d.maxF
  let pct0 := pyOrQ d.percentageF d.percentF
  let pct :=
    if truthyInt occ && truthyInt cap then
      if truthyQ pct0 then pct0
      else some ((occ.getD 0 : ℚ) / (cap.getD 0 : ℚ) * 100)
    else pct0
  ⟨name, occ, cap, pct⟩

/-! ## Dedicated-widget strategy: one location div of find_in_divs -/

/-- Model of the per-location parse of scraper.py find_in_divs: the name
is the stripped text of the name element, the numbers come from the
capacity regex, the percentage is the float of the third capture taken
verbatim; a float conversion failure skips the location. -/
def parse_location_div (nameText capText : String) : Option FReading :=
  match reSearch matchCapacityAt capText.toList with
  | some g =>
    match pyFloatOfChars g.2.2 with
    | some p => some ⟨strTrim nameText, some (g.1 : Int), some (g.2.1 : Int), some p⟩
    | none => none
  | none => none

/-! ## Tier A: try_requests_first and the ancestor walk -/

/-- Inner loop of extract_facility_name over one ancestor text: first
vocabulary hit wins. -/
def extractNameGo : List String → Option String
  | [] => none
  | t :: rest =>
    match findVocabName vocabTierA t with
    | some n => some n
    | none => extractNameGo rest

/-- Model of scraper.py extract_facility_name: scan the texts of at most
three ancestors for a vocabulary name. -/
def extract_facility_name (ancestorTexts : List String) : Option String :=
  extractNameGo (ancestorTexts.take 3)

/-- A candidate element of the Tier A scan: its own text and the texts of
its ancestors from the nearest outward. -/
structure TierAElem where
  text : String
  ancestors : List String
deriving DecidableEq

/-- The element loop of try_requests_first: the alternation pattern is
applied to each element text; on a slash match the percentage is derived
by division (raising on zero capacity, which aborts the whole loop), and
an element is kept only when the ancestor walk finds a name. -/
def tierAProcess : List TierAElem → List FReading → Except PyErr (List FReading)
  | [], acc => .ok acc
  | e :: rest, acc =>
    match reSearch matchSlashOrPctAt e.text.toList with
    | none => tierAProcess rest acc
    | some (.sp o c) =>
      if c = 0 then .error .zeroDivision
      else
        match extract_facility_name e.ancestors with
        | some n =>
          tierAProcess rest
            (acc ++ [⟨n, some (o : Int), some (c : Int), some ((o : ℚ) / (c : ℚ) * 100)⟩])
        | none => tierAProcess rest acc
    | some (.pc p) =>
      match extract_facility_name e.ancestors with
      | some n => tierAProcess rest (acc ++ [⟨n, none, none, some ((p : ℚ))⟩])
      | none => tierAProcess rest acc

/-- Outcome of the Tier A fetch: a network or HTTP failure, or a fetched
page abstracted as its list of candidate elements. -/
inductive FetchOutcome where
  | failure
  | page (elems : List TierAElem)
deriving DecidableEq

/-- Model of scraper.py try_requests_first: any exception (network
failure or a parse error inside the loop) yields None, as does an empty
extraction result. -/
def try_requests_first (f : FetchOutcome) : Option (List FReading) :=
  match f with
  | .failure => none
  | .page elems =>
    match tierAProcess elems [] with
    | .error _ => none
    | .ok fs => if fs = [] then none else some fs

/-- Model of scraper.py scrape: Tier A first; when its result is falsy
the Selenium Tier B path runs (its readings are an input here, the
rendering itself being an external collaborator).  The boolean records
whether Tier B was attempted. -/
def scrape (f : FetchOutcome) (seleniumReadings : List FReading) :
    List FReading × Bool :=
  match try_requests_first f with
  | some fs => if fs = [] then (seleniumReadings, true) else (fs, false)
  | none => (seleniumReadings, true)

/-! ## Store: database.py over an explicit state

SQLite specifics are embedded as follows: the facilities table is a list
of (autoincrement id, name) pairs with the next id tracked explicitly;
usage_data with its UNIQUE(facility_id, timestamp) constraint and INSERT
OR REPLACE is a row list where an upsert deletes the conflicting row and
appends the new one (the unused surrogate row id is dropped); timestamps
are (day, hour, minute) triples whose lexicographic order agrees with the
text ordering SQLite applies to stored datetimes, with strftime day-of-
week and hour-minute projections read off the fields. -/

/-- A stored timestamp: absolute day index plus time of day. -/
structure Timestamp where
  day : Nat
  hour : Nat
  minute : Nat
deriving DecidableEq

/-- Timestamp comparison, lexicographic, models SQLite text comparison of
stored datetimes. -/
def tsLe (a b : Timestamp) : Bool :=
  decide (a.day < b.day) ||
    (a.day == b.day &&
      (decide (a.hour < b.hour) ||
        (a.hour == b.hour && decide (a.minute ≤ b.minute))))

/-- Day-of-week of a timestamp (strftime percent-w). -/
def dowOf (t : Timestamp) : Nat := t.day % 7

/-- Time-of-day of a timestamp (strftime of hour and minute). -/
def todOf (t : Timestamp) : Nat × Nat := (t.hour, t.minute)

/-- One row of the usage_data table. -/
structure UsageRow where
  facilityId : Nat
  timestamp : Timestamp
  occupancy : Option Int
  capacity : Option Int
  percentage : Option ℚ
  metadata : Option String
deriving DecidableEq

/-- The persistent store state: facilities table, its autoincrement
counter, and the usage_data table. -/
structure DBState where
  facilities : List (Nat × String)
  nextFacilityId : Nat
  usage : List UsageRow
deriving DecidableEq

/-- Model of database.py init_database: empty tables, autoincrement
starting at one. -/
def init_database : DBState := ⟨[], 1, []⟩

/-- Model of database.py get_or_create_facility: look the name up, and
insert a fresh row when absent.  Returns the facility id and the new
state. -/
def get_or_create_facility (s : DBState) (name : String) : Nat × DBState :=
  match s.facilities.find? (fun p => p.2 == name) with
  | some p => (p.1, s)
  | none =>
    (s.nextFacilityId,
      ⟨s.facilities ++ [(s.nextFacilityId, name)], s.nextFacilityId + 1, s.usage⟩)

/-- Does a row sit at the given (facility, timestamp) key? -/
def rowKeyMatch (fid : Nat) (ts : Timestamp) (r : UsageRow) : Bool :=
  r.facilityId == fid && r.timestamp == ts

/-- Model of database.py insert_usage_data: resolve or create the
facility, then INSERT OR REPLACE the keyed row (conflicting row deleted,
new row appended).  The metadata argument stands for the serialized
JSON. -/
def insert_usage_data (s : DBState) (name : String) (ts : Timestamp)
    (occ cap : Option Int) (pct : Option ℚ) (meta : Option String) : DBState :=
  let r := get_or_create_facility s name
  ⟨r.2.facilities, r.2.nextFacilityId,
    r.2.usage.filter (fun row => !rowKeyMatch r.1 ts row) ++
      [⟨r.1, ts, occ, cap, pct, meta⟩]⟩

/-- One result row of get_facility_data. -/
structure DataPoint where
  timestamp : Timestamp
  occupancy : Option Int
  capacity : Option Int
  percentage : Option ℚ
  metadata : Option String
deriving DecidableEq

/-- Ordering of usage rows by timestamp, as a decidable relation for the
stable sort (a stable sort with a total preorder computes the same list
as any SQL ORDER BY or Python sort over the same key, so insertion sort
is a faithful model of both). -/
def rRowTs (a b : UsageRow) : Prop := tsLe a.timestamp b.timestamp = true

instance : DecidableRel rRowTs :=
  fun a b => inferInstanceAs (Decidable (tsLe a.timestamp b.timestamp = true))

/-- Lexicographic ordering of facility names. -/
def rStr (a b : String) : Prop := a ≤ b

instance : DecidableRel rStr := fun a b => inferInstanceAs (Decidable (a ≤ b))

/-- Model of database.py get_facility_data: note that it resolves the
facility through get_or_create_facility, so the returned state may have
gained a facility row.  Rows are filtered by the optional inclusive
bounds and ordered by timestamp. -/
def get_facility_data (s : DBState) (name : String)
    (startD endD : Option Timestamp) : List DataPoint × DBState :=
  let r := get_or_create_facility s name
  let rows := r.2.usage.filter (fun row =>
    row.facilityId == r.1 &&
      (match startD with | some d => tsLe d row.timestamp | none => true) &&
      (match endD with | some d => tsLe row.timestamp d | none => true))
  ((List.insertionSort rRowTs rows).map
      (fun row => ⟨row.timestamp, row.occupancy, row.capacity,
        row.percentage, row.metadata⟩),
    r.2)

/-- Model of database.py get_all_facilities: the names ordered
lexicographically. -/
def get_all_facilities (s : DBState) : List String :=
  List.insertionSort rStr (s.facilities.map (fun p => p.2))

/-- An aggregate bucket of get_data_by_time_of_day. -/
structure BucketStats where
  avg_percentage : Option ℚ
  avg_occupancy : Option ℚ
  sample_count : Nat
deriving DecidableEq

/-- SQL AVG over a column: NULL values are ignored, an all-NULL group
averages to NULL. -/
def avgOf (vals : List ℚ) : Option ℚ :=
  if vals = [] then none else some (vals.sum / (vals.length : ℚ))

/-- The ORDER BY key of the aggregation query: day-of-week, then
time-of-day. -/
def bucketKeyLe (a b : Nat × (Nat × Nat)) : Bool :=
  decide (a.1 < b.1) ||
    (a.1 == b.1 &&
      (decide (a.2.1 < b.2.1) ||
        (a.2.1 == b.2.1 && decide (a.2.2 ≤ b.2.2))))

/-- The ORDER BY key as a decidable relation for the sort. -/
def rBKey (a b : Nat × (Nat × Nat)) : Prop := bucketKeyLe a b = true

instance : DecidableRel rBKey :=
  fun a b => inferInstanceAs (Decidable (bucketKeyLe a b = true))

/-- Day names as indexed by day-of-week in database.py. -/
def dayNames : List String :=
  ["Sunday", "Monday", "Tuesday", "Wednesday", "Thursday", "Friday", "Saturday"]

/-- The nested result of get_data_by_time_of_day: day name to ordered
list of (time-of-day, bucket) pairs, in insertion order. -/
abbrev DayData := List (String × List ((Nat × Nat) × BucketStats))

/-- Insert one bucket into the nested dict-of-dicts, preserving Python
dict insertion order. -/
def dataAdd (data : DayData) (day : String) (t : Nat × Nat)
    (st : BucketStats) : DayData :=
  match data with
  | [] => [(day, [(t, st)])]
  | (d, ts) :: rest =>
    if d == day then (d, ts ++ [(t, st)]) :: rest
    else (d, ts) :: dataAdd rest day t st

/-- Model of database.py get_data_by_time_of_day: restrict to the
facility and the trailing window (cutoff stands for the SQL datetime
now-minus-days bound), group by (day-of-week, time-of-day), average with
NULL-ignoring AVG, order buckets by day then time, then build the nested
day-name dictionary.  Resolves the facility through
get_or_create_facility, so the returned state may gain a facility. -/
def get_data_by_time_of_day (s : DBState) (name : String)
    (cutoff : Timestamp) : DayData × DBState :=
  let r := get_or_create_facility s name
  let rows := r.2.usage.filter (fun row =>
    row.facilityId == r.1 && tsLe cutoff row.timestamp)
  let keys := List.insertionSort rBKey
    ((rows.map (fun row => (dowOf row.timestamp, todOf row.timestamp))).dedup)
  let grouped := keys.map (fun k =>
    let grp := rows.filter (fun row =>
      (dowOf row.timestamp, todOf row.timestamp) == k)
    (k, BucketStats.mk
      (avgOf (grp.filterMap (fun row => row.percentage)))
      (avgOf (grp.filterMap (fun row => row.occupancy.map (fun v => (v : ℚ)))))
      grp.length))
  (grouped.foldl (fun acc kst =>
      dataAdd acc (dayNames.getD kst.1.1 "") kst.1.2 kst.2) [],
    r.2)

/-! ## Aggregator: analyze.py -/

/-- One flattened time slot of the analyzer. -/
structure TimeSlot where
  day : String
  time : Nat × Nat
  avg_percentage : Option ℚ
  avg_occupancy : Option ℚ
  sample_count : Nat
deriving DecidableEq

/-- Flatten the nested day data into slots, keeping only buckets with a
positive sample count, in day-then-time order. -/
def flattenSlots (data : DayData) : List TimeSlot :=
  data.foldr (fun dts acc =>
    ((dts.2.filter (fun tst => decide (0 < tst.2.sample_count))).map
      (fun tst => TimeSlot.mk dts.1 tst.1 tst.2.avg_percentage
        tst.2.avg_occupancy tst.2.sample_count)) ++ acc) []

/-- The Python sort key of get_best_times: avg_percentage or positive
infinity, where the or-chain sends both a missing and a zero mean to
infinity. -/
def pyKeyBest (x : TimeSlot) : WithTop ℚ :=
  match x.avg_percentage with
  | none => ⊤
  | some q => if q = 0 then ⊤ else (q : WithTop ℚ)

/-- The ascending best-times ordering (a stable sort under it computes
exactly what the Python stable sort with that key computes). -/
def rBest (a b : TimeSlot) : Prop := pyKeyBest a ≤ pyKeyBest b

instance : DecidableRel rBest :=
  fun a b => inferInstanceAs (Decidable (pyKeyBest a ≤ pyKeyBest b))

instance : IsTotal TimeSlot rBest := ⟨fun a b => le_total (pyKeyBest a) (pyKeyBest b)⟩

instance : IsTrans TimeSlot rBest := ⟨fun _ _ _ h1 h2 => le_trans h1 h2⟩

/-- The Python sort key of get_worst_times: avg_percentage or zero (a
zero mean maps to zero either way). -/
def pyKeyWorst (x : TimeSlot) : ℚ :=
  match x.avg_percentage with
  | none => 0
  | some q => q

/-- The descending worst-times ordering (reverse comparison on the key;
Python realizes the descending stable sort the same way). -/
def rWorst (a b : TimeSlot) : Prop := pyKeyWorst b ≤ pyKeyWorst a

instance : DecidableRel rWorst :=
  fun a b => inferInstanceAs (Decidable (pyKeyWorst b ≤ pyKeyWorst a))

instance : IsTotal TimeSlot rWorst := ⟨fun a b => le_total (pyKeyWorst b) (pyKeyWorst a)⟩

instance : IsTrans TimeSlot rWorst := ⟨fun _ _ _ h1 h2 => le_trans h2 h1⟩

/-- Model of analyze.py get_best_times: flatten, stable-sort ascending by
the falsy-to-infinity key, take the first top_n. -/
def get_best_times (s : DBState) (name : String) (cutoff : Timestamp)
    (top_n : Nat) : List TimeSlot :=
  let data := (get_data_by_time_of_day s name cutoff).1
  if data = [] then []
  else (List.insertionSort rBest (flattenSlots data)).take top_n

/-- Model of analyze.py get_worst_times: flatten, stable-sort descending
by the falsy-to-zero key, take the first top_n. -/
def get_worst_times (s : DBState) (name : String) (cutoff : Timestamp)
    (top_n : Nat) : List TimeSlot :=
  let data := (get_data_by_time_of_day s name cutoff).1
  if data = [] then []
  else (List.insertionSort rWorst (flattenSlots data)).take top_n

/-- Model of analyze.py get_daily_patterns: unweighted mean of each day's
bucket means, days without any non-NULL mean omitted. -/
def get_daily_patterns (s : DBState) (name : String) (cutoff : Timestamp) :
    List (String × ℚ) :=
  let data := (get_data_by_time_of_day s name cutoff).1
  if data = [] then []
  else data.filterMap (fun dts =>
    let ps := dts.2.filterMap (fun tst => tst.2.avg_percentage)
    if ps = [] then none else some (dts.1, ps.sum / (ps.length : ℚ)))

/-- Accumulate one bucket mean under its hour key, creating the hour
entry on first visit even when the mean is missing (as the Python dict
setdefault-style code does). -/
def hoursAdd (acc : List (Nat × List ℚ)) (h : Nat) (v : Option ℚ) :
    List (Nat × List ℚ) :=
  match acc with
  | [] => [(h, match v with | some q => [q] | none => [])]
  | (h0, vs) :: rest =>
    if h0 == h then
      (h0, match v with | some q => vs ++ [q] | none => vs) :: rest
    else (h0, vs) :: hoursAdd rest h v

/-- Model of analyze.py get_hourly_patterns: collect bucket means by hour
across all days, then average each nonempty hour. -/
def get_hourly_patterns (s : DBState) (name : String) (cutoff : Timestamp) :
    List (Nat × ℚ) :=
  let data := (get_data_by_time_of_day s name cutoff).1
  if data = [] then []
  else
    let hv := data.foldl (fun acc dts =>
      dts.2.foldl (fun acc2 tst => hoursAdd acc2 tst.1.1 tst.2.avg_percentage) acc) []
    hv.filterMap (fun hp =>
      if hp.2 = [] then none
      else some (hp.1, hp.2.sum / (hp.2.length : ℚ)))

/-! ## Predicates and concrete instances used by the claim theorems -/

/-- The store invariant of the UNIQUE(facility_id, timestamp) constraint:
all rows have pairwise distinct keys. -/
def UniqueKeys (u : List UsageRow) : Prop :=
  u.Pairwise (fun a b => ¬(a.facilityId = b.facilityId ∧ a.timestamp = b.timestamp))

/-- The best-times sort key as the claim words it: only a missing mean is
sent to plus infinity, a present mean (zero included) keeps its value. -/
def claimKeyBest (x : TimeSlot) : WithTop ℚ :=
  match x.avg_percentage with
  | none => ⊤
  | some q => (q : WithTop ℚ)

/-- A reachable store holding, for one facility, a bucket whose mean
percentage is zero and a bucket whose mean is fifty. -/
def zeroMeanDB : DBState :=
  insert_usage_data
    (insert_usage_data init_database "CoRec" ⟨1, 6, 0⟩ none none (some 0) none)
    "CoRec" ⟨1, 7, 0⟩ none none (some 50) none

/-- The zero-mean slot of zeroMeanDB. -/
def zeroSlot : TimeSlot := ⟨"Monday", (6, 0), some 0, none, 1⟩

/-- The fifty-mean slot of zeroMeanDB. -/
def fiftySlot : TimeSlot := ⟨"Monday", (7, 0), some 50, none, 1⟩

/-- A reachable store holding two buckets with equal mean percentage, for
exercising tie stability. -/
def tieDB : DBState :=
  insert_usage_data
    (insert_usage_data init_database "CoRec" ⟨1, 6, 0⟩ none none (some 30) none)
    "CoRec" ⟨2, 7, 0⟩ none none (some 30) none

/-- First tied slot of tieDB in bucket order. -/
def tieSlotMon : TimeSlot := ⟨"Monday", (6, 0), some 30, none, 1⟩

/-- Second tied slot of tieDB in bucket order. -/
def tieSlotTue : TimeSlot := ⟨"Tuesday", (7, 0), some 30, none, 1⟩

/-! ## Helper lemmas -/

/-- A name returned by the vocabulary scan belongs to the vocabulary. -/
theorem findVocabName_mem {l : List String} {t n : String}
    (h : findVocabName l t = some n) : n ∈ l :=
  List.mem_of_find?_eq_some h

/-- The ancestor walk only ever returns vocabulary names. -/
theorem extractNameGo_mem :
    ∀ {ts : List String} {n : String}, extractNameGo ts = some n → n ∈ vocabTierA
  | [], n, h => by simp [extractNameGo] at h
  | t :: rest, n, h => by
    rw [extractNameGo] at h
    cases h1 : findVocabName vocabTierA t with
    | some m =>
      rw [h1] at h
      exact (Option.some.inj h) ▸ findVocabName_mem h1
    | none =>
      rw [h1] at h
      exact extractNameGo_mem h

/-- Resolving a facility never touches the usage table. -/
theorem gocf_usage (s : DBState) (name : String) :
    ((get_or_create_facility s name).2).usage = s.usage := by
  unfold get_or_create_facility
  cases h : s.facilities.find? (fun p => p.2 == name) <;> simp

/-- Resolving a facility twice is stable: the second call finds the row
the first call found or created, and changes nothing. -/
theorem gocf_stable (s : DBState) (name : String) :
    get_or_create_facility ((get_or_create_facility s name).2) name =
      ((get_or_create_facility s name).1, (get_or_create_facility s name).2) := by
  unfold get_or_create_facility
  cases h : s.facilities.find? (fun p => p.2 == name) with
  | some p => simp [h]
  | none => simp [h, List.find?_append]

/-- Facility resolution only reads the facilities table: replacing the
usage table commutes with it. -/
theorem gocf_usage_set (f : List (Nat × String)) (nid : Nat)
    (u u' : List UsageRow) (name : String) :
    get_or_create_facility ⟨f, nid, u'⟩ name =
      ((get_or_create_facility ⟨f, nid, u⟩ name).1,
        ⟨((get_or_create_facility ⟨f, nid, u⟩ name).2).facilities,
          ((get_or_create_facility ⟨f, nid, u⟩ name).2).nextFacilityId, u'⟩) := by
  unfold get_or_create_facility
  cases h : f.find? (fun p => p.2 == name) <;> simp [h]

/-- Re-filtering after an upsert is the identity on the kept rows. -/
theorem filter_key_append (u : List UsageRow) (fid : Nat) (ts : Timestamp)
    (e : UsageRow) (he : rowKeyMatch fid ts e = true) :
    ((u.filter (fun row => !rowKeyMatch fid ts row) ++ [e]).filter
        (fun row => !rowKeyMatch fid ts row)) =
      u.filter (fun row => !rowKeyMatch fid ts row) := by
  simp [List.filter_append, List.filter_filter, he]

/-- After an upsert the rows at the key are exactly the new row. -/
theorem filter_key_singleton (u : List UsageRow) (fid : Nat) (ts : Timestamp)
    (e : UsageRow) (he : rowKeyMatch fid ts e = true) :
    ((u.filter (fun row => !rowKeyMatch fid ts row) ++ [e]).filter
        (fun row => rowKeyMatch fid ts row)) = [e] := by
  simp [List.filter_append, List.filter_filter, he]

/-! ## Claim theorems -/

/-- Claim C1, counterexample: the dedicated-widget strategy stores the
percentage printed by the page verbatim, so a location div whose capacity
text reads one out of ten but ninety-nine percent yields a Reading whose
percentage is ninety-nine while occupancy over capacity times one hundred
is ten: far outside any rounding tolerance. -/
theorem widget_percentage_verbatim :
    parse_location_div "CoRec" "Capacity: 1/10 // 99%" =
      some ⟨"CoRec", some 1, some 10, some 99⟩ ∧
    ¬ |(99 : ℚ) - (1 : ℚ) / (10 : ℚ) * 100| ≤ 1 := by
  decide

/-- Claim C2: on the literal text of one line with the name and a second
line with the numbers, the free-text fallback returns the empty list: the
helper demands the facility name inside the same line as the numbers, so
the tracked current-facility state never contributes. -/
theorem parse_all_text_cross_line_empty :
    parse_all_text "CoRec\n45/200\n" = .ok [] := by
  decide

/-- Claim C6: the free-text strategy is not total: a zero capacity in the
slash pattern reaches an unguarded division and the resulting error
escapes both the helper and parse_all_text itself. -/
theorem parse_all_text_zero_capacity_raises :
    parse_facility_text "CoRec 0/0" = .error .zeroDivision ∧
    parse_all_text "CoRec 0/0" = .error .zeroDivision := by
  decide

/-- Claim C8, counterexample: the embedded-JSON strategy emits the
source-supplied name unchecked, and the dedicated-widget strategy emits
the name element text unchecked; both can produce a Reading whose name
belongs to none of the fixed vocabularies. -/
theorem json_and_widget_names_unrestricted :
    (convert_json_to_facility
        ⟨none, some "Esports Arena", some 3, none, some 12, none, none, none⟩).name
      = "Esports Arena" ∧
    parse_location_div "Esports Arena" "Capacity: 3/12 // 25.0%" =
      some ⟨"Esports Arena", some 3, some 12, some 25⟩ ∧
    "Esports Arena" ∉ vocabTierA ∧
    "Esports Arena" ∉ vocabParse ∧
    "Esports Arena" ∉ vocabAllText := by
  decide

/-- Claim C5, counterexample: a reachable store with a zero-mean bucket
and a fifty-mean bucket makes get_best_times return the fifty-mean slot
first: the or-chain in the sort key conflates a zero mean with a missing
one, so the output is not ascending in avg_percentage under the key the
claim states (only a missing mean mapped to plus infinity). -/
theorem best_times_misorders_zero_mean :
    get_best_times zeroMeanDB "CoRec" ⟨0, 0, 0⟩ 5 = [fiftySlot, zeroSlot] ∧
    claimKeyBest zeroSlot < claimKeyBest fiftySlot := by
  decide

/-- Claim C3: ingest is idempotent: a second insert_usage_data with the
same name, timestamp and values is the identity on the store, and the
store holds exactly one row at that (facility, timestamp) key. -/
theorem insert_usage_data_idempotent (s : DBState) (name : String)
    (ts : Timestamp) (occ cap : Option Int) (pct : Option ℚ)
    (meta : Option String) :
    insert_usage_data (insert_usage_data s name ts occ cap pct meta)
        name ts occ cap pct meta
      = insert_usage_data s name ts occ cap pct meta ∧
    ((insert_usage_data s name ts occ cap pct meta).usage.filter
        (fun row => rowKeyMatch (get_or_create_facility s name).1 ts row)).length
      = 1 := by
  have he : rowKeyMatch (get_or_create_facility s name).1 ts
      ⟨(get_or_create_facility s name).1, ts, occ, cap, pct, meta⟩ = true := by
    simp [rowKeyMatch]
  constructor
  · show insert_usage_data
        ⟨((get_or_create_facility s name).2).facilities,
          ((get_or_create_facility s name).2).nextFacilityId, _⟩
        name ts occ cap pct meta = _
    rw [insert_usage_data]
    rw [gocf_usage_set ((get_or_create_facility s name).2).facilities
      ((get_or_create_facility s name).2).nextFacilityId
      ((get_or_create_facility s name).2).usage _ name]
    rw [gocf_stable]
    simp only [insert_usage_data]
    rw [gocf_usage s name, filter_key_append _ _ _ _ he]
  · simp only [insert_usage_data]
    rw [gocf_usage s name, filter_key_singleton _ _ _ _ he]
    rfl

/-- Claim C4: an upsert at an existing (facility, timestamp) key fully
replaces the stored occupancy, capacity, percentage and metadata (the
rows at the key afterwards are exactly the one new row), and key
uniqueness of the store is preserved, so no duplicate row ever arises. -/
theorem insert_usage_data_last_write_wins (s : DBState) (name : String)
    (ts : Timestamp) (occ cap : Option Int) (pct : Option ℚ)
    (meta : Option String) :
    ((insert_usage_data s name ts occ cap pct meta).usage.filter
        (fun row => rowKeyMatch (get_or_create_facility s name).1 ts row))
      = [⟨(get_or_create_facility s name).1, ts, occ, cap, pct, meta⟩] ∧
    (UniqueKeys s.usage →
      UniqueKeys (insert_usage_data s name ts occ cap pct meta).usage) := by
  have he : rowKeyMatch (get_or_create_facility s name).1 ts
      ⟨(get_or_create_facility s name).1, ts, occ, cap, pct, meta⟩ = true := by
    simp [rowKeyMatch]
  constructor
  · simp only [insert_usage_data]
    rw [gocf_usage s name, filter_key_singleton _ _ _ _ he]
  · intro hu
    simp only [insert_usage_data, UniqueKeys]
    rw [gocf_usage s name]
    rw [List.pairwise_append]
    refine ⟨List.Pairwise.sublist (List.filter_sublist _) hu, ?_, ?_⟩
    · simp
    · intro a ha b hb
      rw [List.mem_filter] at ha
      rw [List.mem_singleton] at hb
      subst hb
      intro hk
      have : rowKeyMatch (get_or_create_facility s name).1 ts a = true := by
        simp [rowKeyMatch, hk.1, hk.2]
      rw [this] at ha
      exact Bool.noConfusion ha.2

/-- Claim C4, witness: the key-uniqueness preservation applied to the
empty store. -/
theorem insert_usage_data_last_write_wins_w :
    UniqueKeys init_database.usage ∧
    UniqueKeys (insert_usage_data init_database "CoRec" ⟨0, 8, 0⟩
      (some 10) (some 100) (some 10) none).usage :=
  ⟨by simp [init_database, UniqueKeys],
    (insert_usage_data_last_write_wins init_database "CoRec" ⟨0, 8, 0⟩
      (some 10) (some 100) (some 10) none).2
      (by simp [init_database, UniqueKeys])⟩

/-- Claim C9: when the facility has no usage rows inside the trailing
window, both pattern queries return the empty mapping (and, being total
functions of the model, raise nothing). -/
theorem patterns_empty_facility (s : DBState) (name : String)
    (cutoff : Timestamp)
    (h : ∀ r ∈ s.usage,
      ¬(r.facilityId = (get_or_create_facility s name).1 ∧
        tsLe cutoff r.timestamp = true)) :
    get_daily_patterns s name cutoff = [] ∧
    get_hourly_patterns s name cutoff = [] := by
  have hfil : ((get_or_create_facility s name).2).usage.filter
      (fun row => row.facilityId == (get_or_create_facility s name).1 &&
        tsLe cutoff row.timestamp) = [] := by
    rw [gocf_usage s name]
    rw [List.filter_eq_nil_iff]
    intro a ha
    intro hcontra
    rw [Bool.and_eq_true, beq_iff_eq] at hcontra
    exact h a ha hcontra
  have hdata : (get_data_by_time_of_day s name cutoff).1 = [] := by
    simp [get_data_by_time_of_day, hfil]
  constructor
  · simp [get_daily_patterns, hdata]
  · simp [get_hourly_patterns, hdata]

/-- Claim C9, witness: the pattern queries on the empty store. -/
theorem patterns_empty_facility_w :
    get_daily_patterns init_database "CoRec" ⟨0, 0, 0⟩ = [] ∧
    get_hourly_patterns init_database "CoRec" ⟨0, 0, 0⟩ = [] :=
  patterns_empty_facility init_database "CoRec" ⟨0, 0, 0⟩
    (by simp [init_database])

/-- Claim C10: querying an unknown facility name creates the facility as
a side effect: afterwards the name is listed by get_all_facilities even
though the query itself returns zero readings; the aggregated query has
the same side effect. -/
theorem query_unknown_name_creates_facility (s : DBState) (name : String)
    (cutoff : Timestamp)
    (hname : name ∉ s.facilities.map (fun p => p.2))
    (hbound : ∀ r ∈ s.usage, r.facilityId < s.nextFacilityId) :
    name ∈ get_all_facilities ((get_facility_data s name none none).2) ∧
    (get_facility_data s name none none).1 = [] ∧
    name ∈ get_all_facilities ((get_data_by_time_of_day s name cutoff).2) := by
  have hfind : s.facilities.find? (fun p => p.2 == name) = none := by
    rw [List.find?_eq_none]
    intro p hp
    simp only [beq_iff_eq]
    intro hcontra
    exact hname (hcontra ▸ List.mem_map_of_mem (fun q => q.2) hp)
  have hgocf : get_or_create_facility s name =
      (s.nextFacilityId,
        ⟨s.facilities ++ [(s.nextFacilityId, name)], s.nextFacilityId + 1,
          s.usage⟩) := by
    simp [get_or_create_facility, hfind]
  have hmem : name ∈ get_all_facilities
      ⟨s.facilities ++ [(s.nextFacilityId, name)], s.nextFacilityId + 1,
        s.usage⟩ := by
    simp [get_all_facilities, List.mem_insertionSort]
  have hrows : s.usage.filter (fun row =>
      row.facilityId == s.nextFacilityId) = [] := by
    rw [List.filter_eq_nil_iff]
    intro a ha
    simp only [beq_iff_eq]
    exact Nat.ne_of_lt (hbound a ha)
  refine ⟨?_, ?_, ?_⟩
  · simp [get_facility_data, hgocf, hmem]
  · simp [get_facility_data, hgocf, hrows]
  · simp [get_data_by_time_of_day, hgocf, hmem]

/-- Claim C10, witness: querying the empty store for an unknown name. -/
theorem query_unknown_name_creates_facility_w :
    "CoRec" ∈ get_all_facilities
      ((get_facility_data init_database "CoRec" none none).2) ∧
    (get_facility_data init_database "CoRec" none none).1 = [] ∧
    "CoRec" ∈ get_all_facilities
      ((get_data_by_time_of_day init_database "CoRec" ⟨0, 0, 0⟩).2) :=
  query_unknown_name_creates_facility init_database "CoRec" ⟨0, 0, 0⟩
    (by simp [init_database]) (by simp [init_database])

/-- Tier A never reports success with an empty list: an empty extraction
is already turned into none inside try_requests_first. -/
theorem try_requests_first_ne_nil {f : FetchOutcome} {fs : List FReading}
    (h : try_requests_first f = some fs) : fs ≠ [] := by
  cases f with
  | failure => simp [try_requests_first] at h
  | page es =>
    rw [try_requests_first] at h
    cases h2 : tierAProcess es [] with
    | error e => rw [h2] at h; exact Option.noConfusion h
    | ok gs =>
      rw [h2] at h
      by_cases hg : gs = []
      · simp [hg] at h
      · simp [hg] at h
        exact h ▸ hg

/-- Claim C7: scrape skips the Selenium tier exactly when the Tier A
fetch produced at least one reading; a network failure, an exception in
the Tier A loop, or an empty Tier A extraction each make scrape attempt
Tier B. -/
theorem scrape_escalation (f : FetchOutcome) (sel : List FReading) :
    ((scrape f sel).2 = false ↔
      ∃ r rs, try_requests_first f = some (r :: rs)) ∧
    (scrape .failure sel).2 = true ∧
    (∀ es, tierAProcess es [] = .ok [] → (scrape (.page es) sel).2 = true) ∧
    (∀ es e, tierAProcess es [] = .error e →
      (scrape (.page es) sel).2 = true) := by
  refine ⟨?_, by simp [scrape, try_requests_first], ?_, ?_⟩
  · cases h : try_requests_first f with
    | none => simp [scrape, h]
    | some fs =>
      have hne := try_requests_first_ne_nil h
      cases fs with
      | nil => exact absurd rfl hne
      | cons a as => simp [scrape, h]
  · intro es hes
    simp [scrape, try_requests_first, hes]
  · intro es e hes
    simp [scrape, try_requests_first, hes]

/-- Claim C7, witness: an empty page extracts no readings and scrape
escalates to Tier B. -/
theorem scrape_escalation_w :
    tierAProcess [] [] = .ok [] ∧
    (scrape (.page []) []).2 = true :=
  ⟨rfl, (scrape_escalation (.page []) []).2.2.1 [] rfl⟩

/-- Claim C1, amended part: whenever a strategy itself derives the
percentage, the value is exactly occupancy over capacity times one
hundred: the free-text helper always derives it when it emits both
numbers, and the JSON normalization derives it when occupancy and
capacity are truthy and the source percentage is falsy. -/
theorem derived_percentage_exact :
    (∀ (text : String) (r : FReading) (o c : Int),
      parse_facility_text text = .ok (some r) →
      r.occupancy = some o → r.capacity = some c →
      r.percentage = some ((o : ℚ) / (c : ℚ) * 100)) ∧
    (∀ (d : JsonDict) (o c : Int),
      (convert_json_to_facility d).occupancy = some o →
      (convert_json_to_facility d).capacity = some c →
      o ≠ 0 → c ≠ 0 →
      truthyQ (pyOrQ d.percentageF d.percentF) = false →
      (convert_json_to_facility d).percentage =
        some ((o : ℚ) / (c : ℚ) * 100)) := by
  constructor
  · intro text r o c hp ho hc
    rw [parse_facility_text] at hp
    cases h1 : findVocabName vocabParse text with
    | none => rw [h1] at hp; simp at hp
    | some fname =>
      rw [h1] at hp
      cases h2 : reSearch matchSlashAt text.toList with
      | some oc =>
        rw [h2] at hp
        by_cases hz : oc.2 = 0
        · simp [hz] at hp
        · simp [hz] at hp
          subst hp
          have ho' : ((oc.1 : Int)) = o := Option.some.inj ho
          have hc' : ((oc.2 : Int)) = c := Option.some.inj hc
          show some ((oc.1 : ℚ) / (oc.2 : ℚ) * 100) = _
          rw [← ho', ← hc']
          push_cast
          rfl
      | none =>
        rw [h2] at hp
        cases h3 : reSearch matchFloatPctAt text.toList with
        | some p =>
          rw [h3] at hp
          simp at hp
          subst hp
          exact Option.noConfusion ho
        | none => rw [h3] at hp; simp at hp
  · intro d o c ho hc ho0 hc0 hpf
    simp only [convert_json_to_facility] at ho hc ⊢
    rw [ho, hc]
    simp [truthyInt, ho0, hc0, hpf]

/-- Claim C1, amended part, witness: the free-text helper on a
forty-five out of two-hundred reading. -/
theorem derived_percentage_exact_w :
    parse_facility_text "CoRec 45/200" =
      .ok (some ⟨"CoRec", some 45, some 200, some ((45 : ℚ) / 2)⟩) ∧
    (⟨"CoRec", some 45, some 200, some ((45 : ℚ) / 2)⟩ : FReading).percentage =
      some ((45 : ℚ) / (200 : ℚ) * 100) :=
  ⟨by decide,
    derived_percentage_exact.1 "CoRec 45/200"
      ⟨"CoRec", some 45, some 200, some ((45 : ℚ) / 2)⟩ 45 200
      (by decide) rfl rfl⟩

/-- Any reading the free-text helper emits carries a vocabulary name. -/
theorem parse_facility_text_name_mem {text : String} {r : FReading}
    (h : parse_facility_text text = .ok (some r)) : r.name ∈ vocabParse := by
  rw [parse_facility_text] at h
  cases h1 : findVocabName vocabParse text with
  | none => rw [h1] at h; simp at h
  | some fname =>
    rw [h1] at h
    have hmem := findVocabName_mem h1
    cases h2 : reSearch matchSlashAt text.toList with
    | some oc =>
      rw [h2] at h
      by_cases hz : oc.2 = 0
      · simp [hz] at h
      · simp [hz] at h
        subst h
        exact hmem
    | none =>
      rw [h2] at h
      cases h3 : reSearch matchFloatPctAt text.toList with
      | some p =>
        rw [h3] at h
        simp at h
        subst h
        exact hmem
      | none => rw [h3] at h; simp at h

/-- Loop invariant: the free-text scan only accumulates readings whose
name the helper put in the vocabulary. -/
theorem parseAllLoop_names :
    ∀ (lines : List String) (cur : Option String) (acc fs : List FReading),
      parseAllLoop lines cur acc = .ok fs →
      (∀ r ∈ acc, r.name ∈ vocabParse) → ∀ r ∈ fs, r.name ∈ vocabParse
  | [], cur, acc, fs, h, hacc => by
    rw [parseAllLoop] at h
    exact (Except.ok.inj h) ▸ hacc
  | l :: rest, cur, acc, fs, h, hacc => by
    rw [parseAllLoop] at h
    by_cases hl : strTrim l = ""
    · rw [if_pos hl] at h
      exact parseAllLoop_names rest cur acc fs h hacc
    · rw [if_neg hl] at h
      cases hcur : (match findVocabName vocabAllText (strTrim l) with
        | some n => some n
        | none => cur) with
      | none =>
        rw [hcur] at h
        exact parseAllLoop_names rest none acc fs h hacc
      | some nm =>
        rw [hcur] at h
        cases hpt : parse_facility_text (strTrim l) with
        | error e => rw [hpt] at h; exact Except.noConfusion h
        | ok od =>
          rw [hpt] at h
          cases od with
          | none => exact parseAllLoop_names rest (some nm) acc fs h hacc
          | some fd =>
            have h' : (if fd.name = "" then parseAllLoop rest (some nm) acc
                else parseAllLoop rest none (acc ++ [fd])) = Except.ok fs := h
            by_cases hn : fd.name = ""
            · rw [if_pos hn] at h'
              exact parseAllLoop_names rest (some nm) acc fs h' hacc
            · rw [if_neg hn] at h'
              refine parseAllLoop_names rest none (acc ++ [fd]) fs h' ?_
              intro r hr
              rcases List.mem_append.mp hr with hr1 | hr2
              · exact hacc r hr1
              · rw [List.mem_singleton] at hr2
                exact hr2 ▸ parse_facility_text_name_mem hpt

/-- Claim C8, amended part: the strategies built on the shared
name-plus-number parsing emit only vocabulary names: the free-text
helper, the bounded three-level ancestor walk of the Tier A scan, and
the whole free-text fallback. -/
theorem regex_strategies_vocab :
    (∀ (text : String) (r : FReading),
      parse_facility_text text = .ok (some r) → r.name ∈ vocabParse) ∧
    (∀ (texts : List String) (n : String),
      extract_facility_name texts = some n → n ∈ vocabTierA) ∧
    (∀ (text : String) (fs : List FReading),
      parse_all_text text = .ok fs → ∀ r ∈ fs, r.name ∈ vocabParse) := by
  refine ⟨fun text r h => parse_facility_text_name_mem h,
    fun texts n h => extractNameGo_mem h, ?_⟩
  intro text fs h
  exact parseAllLoop_names (splitLines text) none [] fs h (by simp)

/-- Claim C8, amended part, witness: a percent-only line for the TREC
facility, whose emitted name is in the vocabulary. -/
theorem regex_strategies_vocab_w :
    parse_facility_text "TREC at 22.5%" =
      .ok (some ⟨"TREC", none, none, some ((45 : ℚ) / 2)⟩) ∧
    (⟨"TREC", none, none, some ((45 : ℚ) / 2)⟩ : FReading).name ∈ vocabParse :=
  ⟨by decide,
    regex_strategies_vocab.1 "TREC at 22.5%"
      ⟨"TREC", none, none, some ((45 : ℚ) / 2)⟩ (by decide)⟩

/-- Claim C5, amended part: for every store, facility, window and count,
the best list is sorted ascending under the key that sends a missing or
zero mean to plus infinity, the worst list is sorted descending under the
key that sends a missing mean to zero, both lists have at most top_n
slots, and both sorts are stable: a pair tied under the key keeps its
relative order from the flattened day-then-time bucket order. -/
theorem best_worst_times_sorted (s : DBState) (name : String)
    (cutoff : Timestamp) (top_n : Nat) :
    (get_best_times s name cutoff top_n).Pairwise rBest ∧
    (get_worst_times s name cutoff top_n).Pairwise rWorst ∧
    (get_best_times s name cutoff top_n).length ≤ top_n ∧
    (get_worst_times s name cutoff top_n).length ≤ top_n ∧
    (∀ a b,
      List.Sublist [a, b]
        (flattenSlots (get_data_by_time_of_day s name cutoff).1) →
      pyKeyBest a = pyKeyBest b →
      List.Sublist [a, b]
        (List.insertionSort rBest
          (flattenSlots (get_data_by_time_of_day s name cutoff).1))) ∧
    (∀ a b,
      List.Sublist [a, b]
        (flattenSlots (get_data_by_time_of_day s name cutoff).1) →
      pyKeyWorst a = pyKeyWorst b →
      List.Sublist [a, b]
        (List.insertionSort rWorst
          (flattenSlots (get_data_by_time_of_day s name cutoff).1))) := by
  refine ⟨?_, ?_, ?_, ?_, ?_, ?_⟩
  · rw [get_best_times]
    by_cases hd : (get_data_by_time_of_day s name cutoff).1 = []
    · simp [hd]
    · rw [if_neg hd]
      exact List.Pairwise.sublist (List.take_sublist _ _)
        (List.sorted_insertionSort rBest _)
  · rw [get_worst_times]
    by_cases hd : (get_data_by_time_of_day s name cutoff).1 = []
    · simp [hd]
    · rw [if_neg hd]
      exact List.Pairwise.sublist (List.take_sublist _ _)
        (List.sorted_insertionSort rWorst _)
  · rw [get_best_times]
    by_cases hd : (get_data_by_time_of_day s name cutoff).1 = []
    · simp [hd]
    · rw [if_neg hd]
      exact (List.length_take_le _ _)
  · rw [get_worst_times]
    by_cases hd : (get_data_by_time_of_day s name cutoff).1 = []
    · simp [hd]
    · rw [if_neg hd]
      exact (List.length_take_le _ _)
  · intro a b hsub htie
    exact List.pair_sublist_insertionSort (le_of_eq htie) hsub
  · intro a b hsub htie
    exact List.pair_sublist_insertionSort (le_of_eq htie.symm) hsub

/-- Claim C5, amended part, witness: in a reachable store with two tied
buckets the stability clause keeps the Monday slot before the Tuesday
slot in the sorted list. -/
theorem best_worst_times_sorted_w :
    List.Sublist [tieSlotMon, tieSlotTue]
      (List.insertionSort rBest
        (flattenSlots (get_data_by_time_of_day tieDB "CoRec" ⟨0, 0, 0⟩).1)) :=
  (best_worst_times_sorted tieDB "CoRec" ⟨0, 0, 0⟩ 5).2.2.2.2.1
    tieSlotMon tieSlotTue (by decide) (by decide)

end CorecTracker
